import Mathlib

/-!
Shallow embedding of `src/dit/distconst.py` (module `dit.distconst`).

Modelling conventions:
* Python exceptions become an explicit error type `PyErr`; a function that can
  raise returns `Except PyErr _`.
* Probabilities are modelled exactly as rationals (`ℚ`); the spec's
  "within floating tolerance" statements become exact equalities.
* Outcomes are Python values, modelled by `PyVal`: integers, tuples of
  integers (joint outcomes produced by `itertools.product` over integer
  alphabets), and strings.
* `Distribution` / `JointDistribution` live in `dit/npdist.py` / `dit/npjdist.py`,
  which are not part of the sources; their constructor and accessors are
  modelled from the spec (see `distCtor`).
* Resource-level behaviour (numpy int64 overflow of `np.prod`, memory limits)
  is out of scope; `Z` is the exact product of alphabet sizes.
-/

deriving instance DecidableEq for Except

namespace DitDistconst

/-- Python exceptions that `distconst.py` can raise or propagate.
`uncaughtTypeError` stands for a `TypeError` raised by a builtin (e.g. `len`
applied to an unsized object) with an interpreter-defined message, escaping
the module without being caught. -/
inductive PyErr where
  | typeError (msg : String)
  | zeroDivisionError
  | uncaughtTypeError
  deriving DecidableEq

/-- Python values used as distribution outcomes: integers, tuples of integers
(as produced by `itertools.product` over integer alphabets), strings. -/
inductive PyVal where
  | int (k : ℤ)
  | tuple (xs : List ℤ)
  | str (s : String)
  deriving DecidableEq

/-- The declared numeric base of a distribution: `'linear'` or a log base. -/
inductive Base where
  | linear
  | logb (b : ℚ)
  deriving DecidableEq

/-- The concrete Python class of a distribution object:
`dit.npdist.Distribution` (flat) or `dit.npjdist.JointDistribution` (joint). -/
inductive DistKind where
  | flat
  | joint
  deriving DecidableEq

/-- A distribution object: its concrete class, pmf vector, outcome sequence
and declared base. -/
structure Dist where
  kind : DistKind
  pmf : List ℚ
  outcomes : List PyVal
  base : Base
  deriving DecidableEq

/-- Modelled from the spec: the `Distribution`/`JointDistribution`
constructor (classes in `dit/npdist.py` and `dit/npjdist.py`, not among the
sources). Per the spec's external-interface contract, a distribution-like
type "must be constructible from `(pmf_sequence, outcomes_sequence,
base=...)`", the call stores the three fields in a freshly constructed
object, and `.outcomes`, `.pmf`, `.get_base()` read them back; the class the
constructor is invoked on determines the concrete type of the result. -/
def distCtor (kind : DistKind) (pmf : List ℚ) (outcomes : List PyVal)
    (base : Base) : Dist :=
  { kind := kind, pmf := pmf, outcomes := outcomes, base := base }

/-- Python `range(k)` as a list of integers: `[0, 1, ..., k-1]`, empty for
`k ≤ 0`. -/
def pyRange (k : ℤ) : List ℤ :=
  (List.range k.toNat).map Int.ofNat

/-- The argument `n` of `uniform_distribution`, classified the way the code's
`try: len(n) ... except TypeError:` does: either a sized sequence (so
`len(n)` succeeds) or an unsized integer-like value (so `len(n)` raises
`TypeError` and `n` is used as a count). -/
inductive SizedOrInt where
  | sized (xs : List PyVal)
  | intLike (k : ℤ)
  deriving DecidableEq

/-- `uniform_distribution(n)` from `distconst.py` lines 102-128.
For a sized `n` the outcomes are `n` itself and `nOutcomes = len(n)`; for an
unsized integer `n` the outcomes are `range(n)` and `nOutcomes = n`.
`pmf = [1/nOutcomes] * nOutcomes` raises `ZeroDivisionError` when
`nOutcomes = 0` (plain Python true division); for negative `nOutcomes` the
list repetition yields `[]`. -/
def uniform_distribution (n : SizedOrInt) : Except PyErr Dist :=
  let nOutcomes : ℤ :=
    match n with
    | .sized xs => xs.length
    | .intLike k => k
  let outcomes : List PyVal :=
    match n with
    | .sized xs => xs
    | .intLike k => (pyRange k).map PyVal.int
  if nOutcomes = 0 then
    .error .zeroDivisionError
  else
    .ok (distCtor .flat
      (List.replicate nOutcomes.toNat (Rat.divInt 1 nOutcomes)) outcomes .linear)

/-- One element of the `alphabet_size` list of `uniform_joint_distribution`:
either sized (a list of symbols, so `len` succeeds on it) or unsized (e.g. a
bare integer, so `len` raises `TypeError`). -/
inductive AlphElem where
  | sizedA (syms : List ℤ)
  | unsizedA (v : ℤ)
  deriving DecidableEq

/-- The `alphabet_size` argument of `uniform_joint_distribution`, classified
the way the code's `try: int(alphabet_size) ... except TypeError:` does:
an integer-like value (`int()` succeeds), a sized list (`int()` raises
`TypeError`, `len()` succeeds), or a value that is neither (`int()` and
`len()` both raise `TypeError`, e.g. `None`). -/
inductive AlphArg where
  | intLike (k : ℤ)
  | listOf (xs : List AlphElem)
  | noLen
  deriving DecidableEq

/-- `itertools.product(*alphabet)`: the Cartesian product of the given lists,
tuples in lexicographic (product) order. -/
def listProd : List (List ℤ) → List (List ℤ)
  | [] => [[]]
  | a :: rest => a.flatMap (fun x => (listProd rest).map (fun t => x :: t))

/-- `map(len, alphabet)`: succeeds (returning the lists of symbols) only when
every element of the alphabet list is sized; raises `TypeError` (modelled as
`none`) as soon as an unsized element is reached. -/
def allSized : List AlphElem → Option (List (List ℤ))
  | [] => some []
  | .sizedA s :: rest => (allSized rest).map (fun l => s :: l)
  | .unsizedA _ :: _ => none

/-- Lines 181-190 of `distconst.py`, shared by all alphabet-resolution
branches of `uniform_joint_distribution`: compute
`Z = np.prod(map(len, alphabet))` (raising the "alphabet_size must be an int
or list of lists." `TypeError` when some element is unsized),
`pmf = [1/Z] * Z`, `outcomes = tuple(product(*alphabet))`, and construct a
`JointDistribution`. Note `Z` is a numpy integer, so for `Z = 0` the true
division `1/Z` yields `inf` with a warning rather than raising, and the list
repetition yields `[]`; hence there is no division-error branch here. -/
def jointFromAlphabet (alphabet : List AlphElem) : Except PyErr Dist :=
  match allSized alphabet with
  | none => .error (.typeError "alphabet_size must be an int or list of lists.")
  | some alphs =>
    let Z : ℕ := (alphs.map List.length).prod
    let pmf := List.replicate Z (Rat.divInt 1 Z)
    let outcomes := (listProd alphs).map PyVal.tuple
    .ok (distCtor .joint pmf outcomes .linear)

/-- `uniform_joint_distribution(word_length, alphabet_size)` from
`distconst.py` lines 130-190. If `int(alphabet_size)` succeeds, the alphabet
is `[range(alphabet_size)] * word_length`. Otherwise `alphabet_size` is used
as the alphabet list: a length-1 list is broadcast to all `word_length`
positions, a length other than `word_length` raises the shape-mismatch
`TypeError`, and a length-`word_length` list is used as-is. A value on which
`len` itself fails (e.g. `None`) lets the builtin `TypeError` from
`len(alphabet)` escape uncaught. -/
def uniform_joint_distribution (word_length : ℕ) (alphabet_size : AlphArg) :
    Except PyErr Dist :=
  match alphabet_size with
  | .intLike k =>
      jointFromAlphabet (List.replicate word_length (AlphElem.sizedA (pyRange k)))
  | .listOf xs =>
      match xs with
      | [x] => jointFromAlphabet (List.replicate word_length x)
      | _ =>
        if xs.length = word_length then
          jointFromAlphabet xs
        else
          .error (.typeError "word_length does not match number of rvs.")
  | .noLen => .error .uncaughtTypeError

/-- A pseudo-random source, reduced to the one operation the module uses:
`prng.dirichlet(alpha)` takes a vector of concentration parameters and
returns a probability vector. -/
structure Prng where
  dirichlet : List ℚ → List ℚ

/-- `np.ones(n)`: a vector of `n` ones. -/
def npOnes (n : ℕ) : List ℚ :=
  List.replicate n 1

/-- `random_distribution(n, prng)` from `distconst.py` lines 52-67, with the
pseudo-random source supplied (the `prng=None` default resolving to
`dit.math.prng` is outside the sources). Builds the uniform skeleton, then
overwrites its pmf with `prng.dirichlet(np.ones(len(d)))`, where `len(d)` is
the skeleton's outcome count. -/
def random_distribution (n : SizedOrInt) (prng : Prng) : Except PyErr Dist :=
  match uniform_distribution n with
  | .error e => .error e
  | .ok d => .ok { d with pmf := prng.dirichlet (npOnes d.outcomes.length) }

/-- `random_joint_distribution(word_length, alphabet_size, prng)` from
`distconst.py` lines 69-100, with the pseudo-random source supplied. Builds
the uniform joint skeleton, then overwrites its pmf with
`prng.dirichlet(np.ones(len(d)))`. -/
def random_joint_distribution (word_length : ℕ) (alphabet_size : AlphArg)
    (prng : Prng) : Except PyErr Dist :=
  match uniform_joint_distribution word_length alphabet_size with
  | .error e => .error e
  | .ok d => .ok { d with pmf := prng.dirichlet (npOnes d.outcomes.length) }

/-- `modify_outcomes(dist, ctor)` from `distconst.py` lines 19-50:
`d = dist.__class__(dist.pmf, map(ctor, dist.outcomes), base=dist.get_base())`.
The constructor is late-bound on the input's concrete class (`dist.kind`). -/
def modify_outcomes (dist : Dist) (ctor : PyVal → PyVal) : Dist :=
  distCtor dist.kind dist.pmf (dist.outcomes.map ctor) dist.base

/-- Store-level rendering of a `modify_outcomes` call, for the frame
property. The Python heap is a list of distribution objects addressed by
index; the call reads the object at address `a` (failing if the address is
dangling), allocates the freshly constructed result at a fresh address, and
writes no existing address — the source performs no attribute assignment on
`dist`, and per the spec the constructor builds its object fresh. -/
def modifyOutcomesAlloc (σ : List Dist) (a : ℕ) (ctor : PyVal → PyVal) :
    Option (List Dist × ℕ) :=
  match σ[a]? with
  | none => none
  | some d => some (σ ++ [modify_outcomes d ctor], σ.length)

end DitDistconst

namespace DitDistconst

/-! ### Helper lemmas -/

theorem divInt_one_cast (n : ℤ) : Rat.divInt 1 n = 1 / (n : ℚ) := by
  rw [Rat.divInt_eq_div]
  norm_num

theorem uniform_distribution_intLike_eq (k : ℤ) :
    uniform_distribution (.intLike k) =
      if k = 0 then .error .zeroDivisionError
      else .ok (distCtor .flat (List.replicate k.toNat (Rat.divInt 1 k))
        ((pyRange k).map PyVal.int) .linear) := rfl

theorem uniform_distribution_sized_eq (xs : List PyVal) :
    uniform_distribution (.sized xs) =
      if (xs.length : ℤ) = 0 then .error .zeroDivisionError
      else .ok (distCtor .flat
        (List.replicate xs.length (Rat.divInt 1 (xs.length : ℤ))) xs .linear) := rfl

theorem replicate_one_div_sum (n : ℕ) (h : 0 < n) :
    (List.replicate n (1 / (n : ℚ))).sum = 1 := by
  rw [List.sum_replicate, nsmul_eq_mul, mul_one_div, div_self]
  exact Nat.cast_ne_zero.mpr h.ne'

/-! ### Claims about `uniform_distribution` -/

/-- C1: for every integer `n > 0`, `uniform_distribution(n)` returns a
`Distribution` with exactly `n` outcomes, the integers `0 .. n-1` in order,
each with probability `1/n`, linear base, and the probabilities sum to 1. -/
theorem uniform_distribution_count_spec (n : ℤ) (h : 0 < n) :
    uniform_distribution (.intLike n) =
      .ok (distCtor .flat (List.replicate n.toNat (1 / (n : ℚ)))
        ((List.range n.toNat).map fun i : ℕ => PyVal.int (i : ℤ)) .linear) ∧
    ((List.range n.toNat).map fun i : ℕ => PyVal.int (i : ℤ)).length = n.toNat ∧
    (List.replicate n.toNat (1 / (n : ℚ))).sum = 1 := by
  refine ⟨?_, by rw [List.length_map, List.length_range], ?_⟩
  · rw [uniform_distribution_intLike_eq, if_neg h.ne', divInt_one_cast]
    unfold pyRange
    rw [List.map_map]
    rfl
  · have : (List.replicate n.toNat (1 / (n : ℚ))) =
        List.replicate n.toNat (1 / (n.toNat : ℚ)) := by
      rw [show ((n.toNat : ℚ)) = ((n.toNat : ℤ) : ℚ) by push_cast; ring,
        Int.toNat_of_nonneg h.le]
    rw [this]
    exact replicate_one_div_sum n.toNat (by omega)

/-- Witness for C1 at `n = 4`. -/
theorem uniform_distribution_count_spec_witness :
    uniform_distribution (.intLike 4) =
      .ok (distCtor .flat (List.replicate (4:ℤ).toNat (1 / ((4:ℤ) : ℚ)))
        ((List.range (4:ℤ).toNat).map fun i : ℕ => PyVal.int (i : ℤ)) .linear) ∧
    ((List.range (4:ℤ).toNat).map fun i : ℕ => PyVal.int (i : ℤ)).length = (4:ℤ).toNat ∧
    (List.replicate (4:ℤ).toNat (1 / ((4:ℤ) : ℚ))).sum = 1 :=
  uniform_distribution_count_spec 4 (by decide)

/-- C2: for every non-empty sized sequence `S`, `uniform_distribution(S)`
returns a `Distribution` whose outcomes are exactly the elements of `S` in
their original order, each with probability `1/len(S)`; the sized-sequence
reading is the one taken whenever `len(S)` succeeds (the integer-count path
is reached only when `len` raises `TypeError`, i.e. for `SizedOrInt.intLike`
inputs). -/
theorem uniform_distribution_sized_spec (xs : List PyVal) (h : xs ≠ []) :
    uniform_distribution (.sized xs) =
      .ok (distCtor .flat (List.replicate xs.length (1 / (xs.length : ℚ))) xs .linear) ∧
    (List.replicate xs.length (1 / (xs.length : ℚ))).sum = 1 := by
  have hl : xs.length ≠ 0 := by simpa using h
  constructor
  · have hz : ((xs.length : ℤ)) ≠ 0 := by exact_mod_cast hl
    rw [uniform_distribution_sized_eq, if_neg hz, divInt_one_cast]
    push_cast
    rfl
  · exact replicate_one_div_sum xs.length (Nat.pos_of_ne_zero hl)

/-- Witness for C2 at `S = ['a', 'b']`. -/
theorem uniform_distribution_sized_spec_witness :
    uniform_distribution (.sized [PyVal.str "a", PyVal.str "b"]) =
      .ok (distCtor .flat
        (List.replicate ([PyVal.str "a", PyVal.str "b"] : List PyVal).length
          (1 / (([PyVal.str "a", PyVal.str "b"] : List PyVal).length : ℚ)))
        [PyVal.str "a", PyVal.str "b"] .linear) ∧
    (List.replicate ([PyVal.str "a", PyVal.str "b"] : List PyVal).length
      (1 / (([PyVal.str "a", PyVal.str "b"] : List PyVal).length : ℚ))).sum = 1 :=
  uniform_distribution_sized_spec [PyVal.str "a", PyVal.str "b"] (by decide)

/-- C9: `uniform_distribution` raises `ZeroDivisionError` on the integer `0`
and on an empty sequence — the division `1/nOutcomes` is performed
unconditionally — and under the spec's preconditions (integer `n > 0`,
non-empty `S`) this error branch is unreachable. -/
theorem uniform_distribution_zero_division :
    uniform_distribution (.intLike 0) = .error .zeroDivisionError ∧
    uniform_distribution (.sized []) = .error .zeroDivisionError ∧
    (∀ n : ℤ, 0 < n →
      uniform_distribution (.intLike n) ≠ .error .zeroDivisionError) ∧
    (∀ xs : List PyVal, xs ≠ [] →
      uniform_distribution (.sized xs) ≠ .error .zeroDivisionError) := by
  refine ⟨by decide, by decide, ?_, ?_⟩
  · intro n hn hc
    rw [(uniform_distribution_count_spec n hn).1] at hc
    exact Except.noConfusion hc
  · intro xs hxs hc
    rw [(uniform_distribution_sized_spec xs hxs).1] at hc
    exact Except.noConfusion hc

/-- Witness for C9: the non-error branches applied at `n = 5` and
`S = [PyVal.int 7]`. -/
theorem uniform_distribution_zero_division_witness :
    uniform_distribution (.intLike 5) ≠ .error .zeroDivisionError ∧
    uniform_distribution (.sized [PyVal.int 7]) ≠ .error .zeroDivisionError :=
  ⟨uniform_distribution_zero_division.2.2.1 5 (by decide),
   uniform_distribution_zero_division.2.2.2 [PyVal.int 7] (by decide)⟩

end DitDistconst

namespace DitDistconst

/-! ### Claims about `modify_outcomes` -/

/-- C4: `modify_outcomes(dist, ctor)` returns a distribution of the same
concrete class as `dist` (late-bound: a `JointDistribution` input yields a
`JointDistribution`), whose outcomes are `ctor` applied to each original
outcome in order, with the same pmf values and the same declared base. -/
theorem modify_outcomes_spec (d : Dist) (ctor : PyVal → PyVal) :
    modify_outcomes d ctor =
      { kind := d.kind, pmf := d.pmf, outcomes := d.outcomes.map ctor,
        base := d.base } ∧
    (modify_outcomes d ctor).kind = d.kind ∧
    (d.kind = .joint → (modify_outcomes d ctor).kind = .joint) := by
  refine ⟨rfl, rfl, fun h => ?_⟩
  rw [show (modify_outcomes d ctor).kind = d.kind from rfl, h]

/-- Witness for C4: a joint distribution stays joint under
`modify_outcomes`. -/
theorem modify_outcomes_spec_witness :
    (modify_outcomes (distCtor .joint [1] [PyVal.tuple [0, 1]] .linear)
      (fun _ => PyVal.str "01")).kind = .joint :=
  (modify_outcomes_spec (distCtor .joint [1] [PyVal.tuple [0, 1]] .linear)
    (fun _ => PyVal.str "01")).2.2 rfl

/-- C10: a `modify_outcomes` call leaves the store unchanged at every
existing address — in particular the input distribution at address `a` keeps
its outcomes, pmf and base — and the transformed distribution lives only at
the fresh address `r`. -/
theorem modify_outcomes_frame (σ : List Dist) (a : ℕ) (ctor : PyVal → PyVal)
    (σ' : List Dist) (r : ℕ)
    (h : modifyOutcomesAlloc σ a ctor = some (σ', r)) :
    (∀ i : ℕ, i < σ.length → σ'[i]? = σ[i]?) ∧
    σ'[a]? = σ[a]? ∧
    σ'[r]? = (σ[a]?).map (fun d => modify_outcomes d ctor) := by
  unfold modifyOutcomesAlloc at h
  cases hd : σ[a]? with
  | none => rw [hd] at h; exact absurd h (by simp)
  | some d =>
    rw [hd] at h
    have hσ : σ' = σ ++ [modify_outcomes d ctor] := by
      cases h; rfl
    have hr : r = σ.length := by
      cases h; rfl
    have ha : a < σ.length := by
      by_contra hc
      push_neg at hc
      rw [List.getElem?_eq_none hc] at hd
      cases hd
    subst hσ
    subst hr
    refine ⟨fun i hi => List.getElem?_append_left hi,
      (List.getElem?_append_left ha).trans hd, ?_⟩
    rw [List.getElem?_concat_length]
    rfl

/-- Witness for C10 on a one-element store. -/
theorem modify_outcomes_frame_witness :
    ([distCtor .flat [1] [PyVal.int 0] .linear,
      modify_outcomes (distCtor .flat [1] [PyVal.int 0] .linear)
        (fun v => v)] : List Dist)[0]? =
      ([distCtor .flat [1] [PyVal.int 0] .linear] : List Dist)[0]? :=
  (modify_outcomes_frame [distCtor .flat [1] [PyVal.int 0] .linear] 0
    (fun v => v)
    [distCtor .flat [1] [PyVal.int 0] .linear,
      modify_outcomes (distCtor .flat [1] [PyVal.int 0] .linear) (fun v => v)]
    1 (by decide)).2.1

/-! ### Claims about the random samplers -/

/-- C5: with a supplied pseudo-random source, `random_distribution(n, prng)`
returns the `uniform_distribution(n)` skeleton (same outcomes, same kind,
same base) with its pmf overwritten by `prng.dirichlet` applied to an
all-ones concentration vector whose length is the outcome count; and
`random_joint_distribution` satisfies the identical contract with the
`uniform_joint_distribution` skeleton. -/
theorem random_distribution_spec (n : SizedOrInt) (prng : Prng) (d : Dist)
    (h : uniform_distribution n = .ok d)
    (L : ℕ) (a : AlphArg) (dj : Dist)
    (hj : uniform_joint_distribution L a = .ok dj) :
    random_distribution n prng =
      .ok { d with pmf := prng.dirichlet (npOnes d.outcomes.length) } ∧
    ({ d with pmf := prng.dirichlet (npOnes d.outcomes.length) } : Dist).outcomes
      = d.outcomes ∧
    random_joint_distribution L a prng =
      .ok { dj with pmf := prng.dirichlet (npOnes dj.outcomes.length) } ∧
    ({ dj with pmf := prng.dirichlet (npOnes dj.outcomes.length) } : Dist).outcomes
      = dj.outcomes := by
  refine ⟨?_, rfl, ?_, rfl⟩
  · unfold random_distribution
    rw [h]
  · unfold random_joint_distribution
    rw [hj]

end DitDistconst

namespace DitDistconst

/-- Witness for C5 at `n = 2`, `word_length = 1`, `alphabet_size = 2` and a
concrete Dirichlet sampler. -/
theorem random_distribution_spec_witness :
    random_distribution (.intLike 2) ⟨fun _ => [mkRat 1 3, mkRat 2 3]⟩ =
      .ok (distCtor .flat [mkRat 1 3, mkRat 2 3]
        [PyVal.int 0, PyVal.int 1] .linear) ∧
    random_joint_distribution 1 (.intLike 2) ⟨fun _ => [mkRat 1 3, mkRat 2 3]⟩ =
      .ok (distCtor .joint [mkRat 1 3, mkRat 2 3]
        [PyVal.tuple [0], PyVal.tuple [1]] .linear) := by
  have h := random_distribution_spec (.intLike 2)
    ⟨fun _ => [mkRat 1 3, mkRat 2 3]⟩
    (distCtor .flat (List.replicate 2 (Rat.divInt 1 2))
      [PyVal.int 0, PyVal.int 1] .linear)
    (by decide) 1 (.intLike 2)
    (distCtor .joint (List.replicate 2 (Rat.divInt 1 2))
      [PyVal.tuple [0], PyVal.tuple [1]] .linear)
    (by decide)
  exact ⟨h.1.trans (by decide), h.2.2.1.trans (by decide)⟩

/-! ### Claims about `uniform_joint_distribution` error handling -/

/-- C7: a supplied alphabet list whose length is neither 1 nor `word_length`
makes `uniform_joint_distribution` raise the descriptive shape-mismatch
`TypeError` and return no distribution. -/
theorem uniform_joint_distribution_shape_mismatch (L : ℕ) (xs : List AlphElem)
    (h1 : xs.length ≠ 1) (h2 : xs.length ≠ L) :
    uniform_joint_distribution L (.listOf xs) =
      .error (.typeError "word_length does not match number of rvs.") := by
  cases xs with
  | nil => exact if_neg h2
  | cons x t =>
    cases t with
    | nil => exact absurd rfl h1
    | cons y u => exact if_neg h2

/-- Witness for C7 at `uniform_joint_distribution(2, [[0,1],[1,2],[3,4]])`. -/
theorem uniform_joint_distribution_shape_mismatch_witness :
    uniform_joint_distribution 2
        (.listOf [.sizedA [0, 1], .sizedA [1, 2], .sizedA [3, 4]]) =
      .error (.typeError "word_length does not match number of rvs.") :=
  uniform_joint_distribution_shape_mismatch 2
    [.sizedA [0, 1], .sizedA [1, 2], .sizedA [3, 4]] (by decide) (by decide)

theorem allSized_eq_none_of_mem (xs : List AlphElem) (v : ℤ)
    (hv : AlphElem.unsizedA v ∈ xs) : allSized xs = none := by
  induction xs with
  | nil => exact absurd hv (List.not_mem_nil _)
  | cons x t ih =>
    cases x with
    | sizedA s =>
      have ht : AlphElem.unsizedA v ∈ t := by
        rcases List.mem_cons.mp hv with h | h
        · exact AlphElem.noConfusion h
        · exact h
      rw [show allSized (AlphElem.sizedA s :: t) =
        (allSized t).map (fun l => s :: l) from rfl, ih ht]
      rfl
    | unsizedA w => rfl

theorem jointFromAlphabet_none (alphabet : List AlphElem)
    (h : allSized alphabet = none) :
    jointFromAlphabet alphabet =
      .error (.typeError "alphabet_size must be an int or list of lists.") := by
  unfold jointFromAlphabet
  rw [h]

/-- C8 counterexample: `uniform_joint_distribution(2, [1, 2, 3])` — an
argument that is neither coercible to an integer nor a list whose elements
are all sized — raises the shape-mismatch `TypeError`, not the
"alphabet_size must be an int or list of lists." one: the length check on
the list runs before any element is measured. -/
theorem uniform_joint_distribution_message_counterexample :
    uniform_joint_distribution 2
        (.listOf [.unsizedA 1, .unsizedA 2, .unsizedA 3]) =
      .error (.typeError "word_length does not match number of rvs.") ∧
    uniform_joint_distribution 2
        (.listOf [.unsizedA 1, .unsizedA 2, .unsizedA 3]) ≠
      .error (.typeError "alphabet_size must be an int or list of lists.") := by
  decide

/-- C8 (amended): a non-integer-coercible `alphabet_size` that is a sized
list containing an unsized element fails with the `TypeError`
"alphabet_size must be an int or list of lists." provided its length passes
the shape check first (length equal to `word_length`, or length 1 with
`word_length ≥ 1`); an argument on which `len` itself fails (e.g. `None`)
instead lets the builtin `TypeError` escape uncaught. -/
theorem uniform_joint_distribution_unsized_spec (L : ℕ) (xs : List AlphElem)
    (hbad : ∃ v : ℤ, AlphElem.unsizedA v ∈ xs)
    (hlen : xs.length = L ∨ (xs.length = 1 ∧ 1 ≤ L)) :
    uniform_joint_distribution L (.listOf xs) =
      .error (.typeError "alphabet_size must be an int or list of lists.") ∧
    uniform_joint_distribution L .noLen = .error .uncaughtTypeError := by
  refine ⟨?_, rfl⟩
  obtain ⟨v, hv⟩ := hbad
  cases xs with
  | nil => exact absurd hv (List.not_mem_nil _)
  | cons x t =>
    cases t with
    | nil =>
      have hx : x = .unsizedA v := by
        rcases List.mem_cons.mp hv with h | h
        · exact h.symm
        · exact absurd h (List.not_mem_nil _)
      have hL : 1 ≤ L := by
        rcases hlen with h | ⟨_, h⟩
        · simp at h; omega
        · exact h
      subst hx
      show jointFromAlphabet (List.replicate L (.unsizedA v)) = _
      apply jointFromAlphabet_none
      apply allSized_eq_none_of_mem _ v
      rw [List.mem_replicate]
      exact ⟨by omega, rfl⟩
    | cons y u =>
      have hlen2 : (x :: y :: u).length = L := by
        rcases hlen with h | ⟨h, _⟩
        · exact h
        · simp at h
      show (if (x :: y :: u).length = L then jointFromAlphabet (x :: y :: u)
        else .error (.typeError "word_length does not match number of rvs.")) = _
      rw [if_pos hlen2]
      exact jointFromAlphabet_none _ (allSized_eq_none_of_mem _ v hv)

/-- Witness for the amended C8 at `uniform_joint_distribution(2, [1, 2])`. -/
theorem uniform_joint_distribution_unsized_spec_witness :
    uniform_joint_distribution 2 (.listOf [.unsizedA 1, .unsizedA 2]) =
      .error (.typeError "alphabet_size must be an int or list of lists.") ∧
    uniform_joint_distribution 2 .noLen = .error .uncaughtTypeError :=
  uniform_joint_distribution_unsized_spec 2 [.unsizedA 1, .unsizedA 2]
    ⟨1, by decide⟩ (Or.inl rfl)

end DitDistconst

namespace DitDistconst

/-! ### The lexicographic structure of `itertools.product` -/

theorem range_flatMap_map {α : Type} (m n : ℕ) (f : ℕ → ℕ → α) :
    (List.range m).flatMap (fun x => (List.range n).map (f x)) =
      (List.range (m * n)).map (fun i => f (i / n) (i % n)) := by
  induction m with
  | zero => simp
  | succ p ih =>
    rw [List.range_succ, List.flatMap_append, ih, Nat.succ_mul, List.range_add,
      List.map_append]
    congr 1
    rw [show ([p] : List ℕ).flatMap (fun x => (List.range n).map (f x)) =
      (List.range n).map (f p) by simp, List.map_map]
    apply List.map_congr_left
    intro j hj
    have hj' : j < n := List.mem_range.mp hj
    have hn : 0 < n := lt_of_le_of_lt (Nat.zero_le j) hj'
    have h1 : (p * n + j) / n = p := by
      rw [Nat.add_comm, Nat.mul_comm, Nat.add_mul_div_left _ _ hn,
        Nat.div_eq_of_lt hj', Nat.zero_add]
    have h2 : (p * n + j) % n = j := by
      rw [Nat.add_comm, Nat.mul_comm p n, Nat.add_mul_mod_self_left,
        Nat.mod_eq_of_lt hj']
    show f p j = f ((p * n + j) / n) ((p * n + j) % n)
    rw [h1, h2]

/-- The length-`L` big-endian base-`k` digit string of `i`: the `i`-th tuple
of the lexicographically ordered product of `L` copies of `range(k)`. -/
def digitsBE (k : ℕ) : ℕ → ℕ → List ℤ
  | 0, _ => []
  | L + 1, i => (Int.ofNat (i / k ^ L)) :: digitsBE k L (i % k ^ L)

theorem listProd_replicate_range (k L : ℕ) :
    listProd (List.replicate L (pyRange (k : ℤ))) =
      (List.range (k ^ L)).map (digitsBE k L) := by
  induction L with
  | zero =>
    show [[]] = (List.range (k ^ 0)).map (digitsBE k 0)
    rw [pow_zero]
    rfl
  | succ L ih =>
    rw [List.replicate_succ]
    show (pyRange (k : ℤ)).flatMap
      (fun x => (listProd (List.replicate L (pyRange (k : ℤ)))).map
        (fun t => x :: t)) = _
    rw [ih, show pyRange (k : ℤ) = (List.range k).map Int.ofNat by
      unfold pyRange; rw [Int.toNat_natCast], List.flatMap_map]
    simp only [List.map_map, Function.comp_def]
    rw [range_flatMap_map k (k ^ L)
      (fun x j => Int.ofNat x :: digitsBE k L j), ← pow_succ']
    rfl

theorem listProd_length (as : List (List ℤ)) :
    (listProd as).length = (as.map List.length).prod := by
  induction as with
  | nil => rfl
  | cons a t ih =>
    rw [show listProd (a :: t) =
      a.flatMap (fun x => (listProd t).map (fun s => x :: s)) from rfl,
      List.length_flatMap]
    simp only [Function.comp_def, List.length_map, ih, List.map_const',
      List.sum_replicate, smul_eq_mul, List.map_cons, List.prod_cons]

theorem allSized_map_sized (alphs : List (List ℤ)) :
    allSized (alphs.map AlphElem.sizedA) = some alphs := by
  induction alphs with
  | nil => rfl
  | cons a t ih =>
    rw [List.map_cons, show allSized (AlphElem.sizedA a :: t.map AlphElem.sizedA)
      = (allSized (t.map AlphElem.sizedA)).map (fun l => a :: l) from rfl, ih]
    rfl

theorem jointFromAlphabet_sized (alphs : List (List ℤ)) :
    jointFromAlphabet (alphs.map AlphElem.sizedA) =
      .ok (distCtor .joint
        (List.replicate (alphs.map List.length).prod
          (Rat.divInt 1 ((alphs.map List.length).prod : ℤ)))
        ((listProd alphs).map PyVal.tuple) .linear) := by
  unfold jointFromAlphabet
  rw [allSized_map_sized]

/-! ### Claims about `uniform_joint_distribution` construction -/

/-- C3: for a positive word length `L` and an integer alphabet size `k`,
`uniform_joint_distribution(L, k)` returns a `JointDistribution` whose
outcomes are the `L`-fold Cartesian product of `0..k-1` in lexicographic
(product) order — the `i`-th outcome is the big-endian base-`k` digit string
of `i` — with `Z = k^L` outcomes each of probability `1/Z` and linear base;
in particular `uniform_joint_distribution(2, 2)` has the 4 outcomes
`(0,0),(0,1),(1,0),(1,1)`, each with probability `1/4`. -/
theorem uniform_joint_distribution_int_spec (L k : ℕ) (hL : 1 ≤ L) :
    uniform_joint_distribution L (.intLike (k : ℤ)) =
      .ok (distCtor .joint
        (List.replicate (k ^ L) (1 / ((k ^ L : ℕ) : ℚ)))
        ((List.range (k ^ L)).map (fun i => PyVal.tuple (digitsBE k L i)))
        .linear) ∧
    ((List.range (k ^ L)).map (fun i => PyVal.tuple (digitsBE k L i))).length
      = k ^ L ∧
    uniform_joint_distribution 2 (.intLike 2) =
      .ok (distCtor .joint (List.replicate 4 (1 / (4 : ℚ)))
        [PyVal.tuple [0, 0], PyVal.tuple [0, 1], PyVal.tuple [1, 0],
          PyVal.tuple [1, 1]] .linear) := by
  refine ⟨?_, by rw [List.length_map, List.length_range], ?_⟩
  · show jointFromAlphabet
      (List.replicate L (AlphElem.sizedA (pyRange (k : ℤ)))) = _
    rw [show List.replicate L (AlphElem.sizedA (pyRange (k : ℤ))) =
      (List.replicate L (pyRange (k : ℤ))).map AlphElem.sizedA from
      List.map_replicate.symm, jointFromAlphabet_sized]
    have hlen : (pyRange (k : ℤ)).length = k := by
      unfold pyRange
      rw [List.length_map, List.length_range, Int.toNat_natCast]
    have hZ : ((List.replicate L (pyRange (k : ℤ))).map List.length).prod
        = k ^ L := by
      rw [List.map_replicate, List.prod_replicate, hlen]
    rw [hZ, listProd_replicate_range, List.map_map, divInt_one_cast]
    push_cast
    rfl
  · have h4 : Rat.divInt 1 (4 : ℤ) = 1 / (4 : ℚ) := by
      rw [divInt_one_cast]; norm_num
    rw [← h4]
    decide

/-- Witness for C3: the general theorem applied at `L = 2`, `k = 2` yields
the explicit 4-outcome distribution. -/
theorem uniform_joint_distribution_int_spec_witness :
    uniform_joint_distribution 2 (.intLike 2) =
      .ok (distCtor .joint (List.replicate 4 (1 / (4 : ℚ)))
        [PyVal.tuple [0, 0], PyVal.tuple [0, 1], PyVal.tuple [1, 0],
          PyVal.tuple [1, 1]] .linear) :=
  (uniform_joint_distribution_int_spec 2 2 (by decide)).2.2

/-- C6: a supplied list containing exactly one alphabet is broadcast to all
`word_length` positions; a supplied list whose length equals `word_length`
is used as-is, one alphabet per position; in particular
`uniform_joint_distribution(3, [[0,1]])` yields `2^3 = 8` equiprobable
outcomes. -/
theorem uniform_joint_distribution_broadcast_spec (L : ℕ) (hL : 1 ≤ L)
    (a : List ℤ) (xs : List AlphElem) (hxs : xs.length = L) :
    uniform_joint_distribution L (.listOf [.sizedA a]) =
      .ok (distCtor .joint
        (List.replicate (a.length ^ L) (1 / ((a.length ^ L : ℕ) : ℚ)))
        ((listProd (List.replicate L a)).map PyVal.tuple) .linear) ∧
    ((listProd (List.replicate L a)).map PyVal.tuple).length = a.length ^ L ∧
    uniform_joint_distribution L (.listOf xs) = jointFromAlphabet xs ∧
    uniform_joint_distribution 3 (.listOf [.sizedA [0, 1]]) =
      .ok (distCtor .joint (List.replicate 8 (1 / (8 : ℚ)))
        ([[0, 0, 0], [0, 0, 1], [0, 1, 0], [0, 1, 1], [1, 0, 0], [1, 0, 1],
          [1, 1, 0], [1, 1, 1]].map PyVal.tuple) .linear) := by
  refine ⟨?_, ?_, ?_, ?_⟩
  · show jointFromAlphabet (List.replicate L (AlphElem.sizedA a)) = _
    rw [show List.replicate L (AlphElem.sizedA a) =
      (List.replicate L a).map AlphElem.sizedA from List.map_replicate.symm,
      jointFromAlphabet_sized]
    have hZ : ((List.replicate L a).map List.length).prod = a.length ^ L := by
      rw [List.map_replicate, List.prod_replicate]
    rw [hZ, divInt_one_cast]
    push_cast
    rfl
  · rw [List.length_map, listProd_length, List.map_replicate,
      List.prod_replicate]
  · cases xs with
    | nil => exact if_pos hxs
    | cons x t =>
      cases t with
      | nil =>
        have hL1 : L = 1 := by simpa using hxs.symm
        subst hL1
        show jointFromAlphabet (List.replicate 1 x) = jointFromAlphabet [x]
        rw [List.replicate_one]
      | cons y u => exact if_pos hxs
  · have h8 : Rat.divInt 1 (8 : ℤ) = 1 / (8 : ℚ) := by
      rw [divInt_one_cast]; norm_num
    rw [← h8]
    decide

/-- Witness for C6: the theorem applied at `word_length = 3`, single
alphabet `[0,1]`, and the length-3 list `[[0],[1],[2]]`. -/
theorem uniform_joint_distribution_broadcast_spec_witness :
    uniform_joint_distribution 3 (.listOf [.sizedA [0, 1]]) =
      .ok (distCtor .joint (List.replicate 8 (1 / (8 : ℚ)))
        ([[0, 0, 0], [0, 0, 1], [0, 1, 0], [0, 1, 1], [1, 0, 0], [1, 0, 1],
          [1, 1, 0], [1, 1, 1]].map PyVal.tuple) .linear) :=
  (uniform_joint_distribution_broadcast_spec 3 (by decide) [0, 1]
    [.sizedA [0], .sizedA [1], .sizedA [2]] (by decide)).2.2.2

end DitDistconst
